import Mathlib

/-!
Shallow embedding of the presence / real-time delivery core of the rca-app
chat server (server/routes.ts: `registerRoutes`, the WebSocket handlers and
`broadcastUserStatus`; server/storage.ts: the `MemStorage` / `DbStorage`
message operations), together with proofs of the spec's testable properties.

The JavaScript `Map<number, _>` objects (the `clients` registry, the
`MemStorage` message map) are embedded as insertion-ordered association
lists: `Map.set` updates in place when the key is present and appends
otherwise, `Map.delete` removes the entry, `Map.values()` iterates in
insertion order.
-/

namespace RcaApp

/-- Lookup in an association list (first matching key), like `Map.get`. -/
def alookup {α : Type} (l : List (Nat × α)) (k : Nat) : Option α :=
  match l with
  | [] => none
  | (k2, v) :: t => if k2 = k then some v else alookup t k

/-- `Map.set` semantics: update in place when the key is present, append
otherwise. -/
def ainsert {α : Type} (l : List (Nat × α)) (k : Nat) (v : α) : List (Nat × α) :=
  if l.any (fun p => p.1 = k) then
    l.map (fun p => if p.1 = k then (k, v) else p)
  else
    l ++ [(k, v)]

/-- Apply `f` to the value stored at key `k`, if any (models in-place field
mutation of an object held in a map). -/
def aupdate {α : Type} (l : List (Nat × α)) (k : Nat) (f : α → α) : List (Nat × α) :=
  l.map (fun p => if p.1 = k then (k, f p.2) else p)

/-- `Map.delete` semantics. -/
def aerase {α : Type} (l : List (Nat × α)) (k : Nat) : List (Nat × α) :=
  l.filter (fun p => decide (¬ p.1 = k))

/-- `Map.values()` in insertion order. -/
def avalues {α : Type} (l : List (Nat × α)) : List α :=
  l.map Prod.snd

theorem alookup_cons_self {α : Type} (k : Nat) (v : α) (t : List (Nat × α)) :
    alookup ((k, v) :: t) k = some v := by
  simp [alookup]

theorem alookup_cons_ne {α : Type} {k k2 : Nat} (v : α) (t : List (Nat × α))
    (h : ¬ k = k2) : alookup ((k, v) :: t) k2 = alookup t k2 := by
  simp only [alookup]
  rw [if_neg h]

theorem alookup_map_set_self {α : Type} {l : List (Nat × α)} {k : Nat} {v : α}
    (h : l.any (fun p => p.1 = k) = true) :
    alookup (l.map (fun p => if p.1 = k then (k, v) else p)) k = some v := by
  induction l with
  | nil => simp at h
  | cons a t ih =>
    obtain ⟨ka, va⟩ := a
    simp only [List.map_cons]
    by_cases ha : ka = k
    · subst ha
      have hhead : (if (ka, va).1 = ka then (ka, v) else (ka, va)) = (ka, v) := if_pos rfl
      rw [hhead, alookup_cons_self]
    · have hhead : (if (ka, va).1 = k then (k, v) else (ka, va)) = (ka, va) := if_neg ha
      rw [hhead, alookup_cons_ne _ _ ha]
      apply ih
      simp only [List.any_cons, Bool.or_eq_true, decide_eq_true_eq] at h
      rcases h with h | h
      · exact absurd h ha
      · exact h

theorem alookup_map_set_ne {α : Type} (l : List (Nat × α)) {k k2 : Nat} (v : α)
    (hne : k2 ≠ k) :
    alookup (l.map (fun p => if p.1 = k then (k, v) else p)) k2 = alookup l k2 := by
  induction l with
  | nil => rfl
  | cons a t ih =>
    obtain ⟨ka, va⟩ := a
    simp only [List.map_cons]
    by_cases ha : ka = k
    · subst ha
      have hka : ¬ ka = k2 := fun hh => hne hh.symm
      have hhead : (if (ka, va).1 = ka then (ka, v) else (ka, va)) = (ka, v) := if_pos rfl
      rw [hhead, alookup_cons_ne _ _ hka, alookup_cons_ne _ _ hka, ih]
    · have hhead : (if (ka, va).1 = k then (k, v) else (ka, va)) = (ka, va) := if_neg ha
      rw [hhead]
      by_cases ha2 : ka = k2
      · subst ha2
        rw [alookup_cons_self, alookup_cons_self]
      · rw [alookup_cons_ne _ _ ha2, alookup_cons_ne _ _ ha2, ih]

theorem alookup_append_single {α : Type} {l : List (Nat × α)} {k : Nat}
    (h : l.any (fun p => p.1 = k) = false) (v : α) :
    alookup (l ++ [(k, v)]) k = some v := by
  induction l with
  | nil => rw [List.nil_append, alookup_cons_self]
  | cons a t ih =>
    obtain ⟨ka, va⟩ := a
    simp only [List.any_cons, Bool.or_eq_false_iff, decide_eq_false_iff_not] at h
    rw [List.cons_append, alookup_cons_ne _ _ h.1]
    exact ih h.2

theorem alookup_append_single_ne {α : Type} (l : List (Nat × α)) {k k2 : Nat} (v : α)
    (hne : k2 ≠ k) : alookup (l ++ [(k, v)]) k2 = alookup l k2 := by
  induction l with
  | nil =>
    have hk : ¬ k = k2 := fun hh => hne hh.symm
    rw [List.nil_append, alookup_cons_ne _ _ hk]
  | cons a t ih =>
    obtain ⟨ka, va⟩ := a
    rw [List.cons_append]
    by_cases ha2 : ka = k2
    · subst ha2
      rw [alookup_cons_self, alookup_cons_self]
    · rw [alookup_cons_ne _ _ ha2, alookup_cons_ne _ _ ha2, ih]

theorem alookup_ainsert_self {α : Type} (l : List (Nat × α)) (k : Nat) (v : α) :
    alookup (ainsert l k v) k = some v := by
  unfold ainsert
  by_cases hmem : l.any (fun p => p.1 = k) = true
  · simpa [hmem] using alookup_map_set_self (v := v) hmem
  · rw [Bool.not_eq_true] at hmem
    simpa [hmem] using alookup_append_single hmem v

theorem alookup_ainsert_ne {α : Type} (l : List (Nat × α)) {k k2 : Nat} (v : α)
    (hne : k2 ≠ k) : alookup (ainsert l k v) k2 = alookup l k2 := by
  unfold ainsert
  by_cases hmem : l.any (fun p => p.1 = k) = true
  · simp only [hmem, if_true]
    exact alookup_map_set_ne l v hne
  · rw [Bool.not_eq_true] at hmem
    simp only [hmem, Bool.false_eq_true, if_false]
    exact alookup_append_single_ne l v hne

theorem alookup_aerase_self {α : Type} (l : List (Nat × α)) (k : Nat) :
    alookup (aerase l k) k = none := by
  unfold aerase
  induction l with
  | nil => rfl
  | cons a t ih =>
    obtain ⟨ka, va⟩ := a
    rw [List.filter_cons]
    by_cases ha : ka = k
    · rw [if_neg (by simp [ha])]
      exact ih
    · rw [if_pos (by simp [ha]), alookup_cons_ne _ _ ha]
      exact ih

theorem alookup_aerase_ne {α : Type} (l : List (Nat × α)) {k k2 : Nat}
    (hne : k2 ≠ k) : alookup (aerase l k) k2 = alookup l k2 := by
  unfold aerase
  induction l with
  | nil => rfl
  | cons a t ih =>
    obtain ⟨ka, va⟩ := a
    rw [List.filter_cons]
    by_cases ha : ka = k
    · have hka : ¬ ka = k2 := fun hh => hne (hh.symm.trans ha)
      rw [if_neg (by simp [ha]), ih, alookup_cons_ne _ _ hka]
    · by_cases ha2 : ka = k2
      · subst ha2
        rw [if_pos (by simp [ha]), alookup_cons_self, alookup_cons_self]
      · rw [if_pos (by simp [ha]), alookup_cons_ne _ _ ha2, alookup_cons_ne _ _ ha2, ih]

theorem alookup_aupdate_self {α : Type} {l : List (Nat × α)} {k : Nat} {v : α}
    (f : α → α) (h : alookup l k = some v) :
    alookup (aupdate l k f) k = some (f v) := by
  unfold aupdate
  induction l with
  | nil => simp [alookup] at h
  | cons a t ih =>
    obtain ⟨ka, va⟩ := a
    simp only [List.map_cons]
    by_cases ha : ka = k
    · subst ha
      rw [alookup_cons_self] at h
      cases h
      have hhead : (if (ka, v).1 = ka then (ka, f v) else (ka, v)) = (ka, f v) :=
        if_pos rfl
      rw [hhead, alookup_cons_self]
    · rw [alookup_cons_ne _ _ ha] at h
      have hhead : (if (ka, va).1 = k then (k, f va) else (ka, va)) = (ka, va) := if_neg ha
      rw [hhead, alookup_cons_ne _ _ ha]
      exact ih h

theorem alookup_aupdate_ne {α : Type} (l : List (Nat × α)) {k k2 : Nat}
    (f : α → α) (hne : k2 ≠ k) :
    alookup (aupdate l k f) k2 = alookup l k2 := by
  unfold aupdate
  induction l with
  | nil => rfl
  | cons a t ih =>
    obtain ⟨ka, va⟩ := a
    simp only [List.map_cons]
    by_cases ha : ka = k
    · subst ha
      have hka : ¬ ka = k2 := fun hh => hne hh.symm
      have hhead : (if (ka, va).1 = ka then (ka, f va) else (ka, va)) = (ka, f va) :=
        if_pos rfl
      rw [hhead, alookup_cons_ne _ _ hka, alookup_cons_ne _ _ hka, ih]
    · have hhead : (if (ka, va).1 = k then (k, f va) else (ka, va)) = (ka, va) := if_neg ha
      rw [hhead]
      by_cases ha2 : ka = k2
      · subst ha2
        rw [alookup_cons_self, alookup_cons_self]
      · rw [alookup_cons_ne _ _ ha2, alookup_cons_ne _ _ ha2, ih]

theorem keys_aupdate {α : Type} (l : List (Nat × α)) (k : Nat) (f : α → α) :
    (aupdate l k f).map Prod.fst = l.map Prod.fst := by
  unfold aupdate
  induction l with
  | nil => rfl
  | cons a t ih =>
    obtain ⟨ka, va⟩ := a
    simp only [List.map_cons]
    by_cases ha : ka = k
    · subst ha
      have hhead : (if (ka, va).1 = ka then (ka, f va) else (ka, va)) = (ka, f va) :=
        if_pos rfl
      rw [hhead]
      simp [ih]
    · have hhead : (if (ka, va).1 = k then (k, f va) else (ka, va)) = (ka, va) := if_neg ha
      rw [hhead]
      simp [ih]

theorem keys_map_set {α : Type} (l : List (Nat × α)) (k : Nat) (v : α) :
    (l.map (fun p => if p.1 = k then (k, v) else p)).map Prod.fst = l.map Prod.fst := by
  induction l with
  | nil => rfl
  | cons a t ih =>
    obtain ⟨ka, va⟩ := a
    simp only [List.map_cons]
    by_cases ha : ka = k
    · subst ha
      have hhead : (if (ka, va).1 = ka then (ka, v) else (ka, va)) = (ka, v) := if_pos rfl
      rw [hhead]
      simp [ih]
    · have hhead : (if (ka, va).1 = k then (k, v) else (ka, va)) = (ka, va) := if_neg ha
      rw [hhead]
      simp [ih]

theorem keys_ainsert_nodup {α : Type} (l : List (Nat × α)) (k : Nat) (v : α)
    (h : (l.map Prod.fst).Nodup) : ((ainsert l k v).map Prod.fst).Nodup := by
  unfold ainsert
  by_cases hmem : l.any (fun p => p.1 = k) = true
  · simp only [hmem, if_true]
    rw [keys_map_set]
    exact h
  · rw [Bool.not_eq_true] at hmem
    simp only [hmem, Bool.false_eq_true, if_false]
    have hnot : k ∉ l.map Prod.fst := by
      intro hk
      rcases List.mem_map.mp hk with ⟨p, hp, hpk⟩
      have hany : l.any (fun p => p.1 = k) = true :=
        List.any_eq_true.mpr ⟨p, hp, by simpa using hpk⟩
      rw [hmem] at hany
      exact Bool.false_ne_true hany
    simp only [List.map_append, List.map_cons, List.map_nil]
    rw [List.nodup_append]
    refine ⟨h, List.nodup_singleton k, ?_⟩
    intro x hx hx1
    simp only [List.mem_singleton] at hx1
    exact hnot (hx1 ▸ hx)

/-! ### The Message data model

`shared/schema.ts`: a message row has `id`, `content`, `senderId`,
`receiverId`, `mediaUrl` (nullable), `createdAt` (timestamp, embedded as a
Nat of milliseconds), `deleted` (soft-delete flag). -/

structure Message where
  id : Nat
  content : String
  senderId : Nat
  receiverId : Nat
  mediaUrl : Option String
  createdAt : Nat
  deleted : Bool
  deriving DecidableEq, Repr

/-- The shape accepted by `insertMessageSchema` (`shared/schema.ts`). -/
structure InsertMessage where
  content : String
  senderId : Nat
  receiverId : Nat
  mediaUrl : Option String
  deriving DecidableEq, Repr

/-- The message table of `MemStorage` (a `Map<number, Message>`) / the
`messages` table of `DbStorage`, keyed by message id. -/
abbrev MsgStore := List (Nat × Message)

/-- `MemStorage.getMessage` / `DbStorage.getMessage`: select by id. -/
def getMessage (st : MsgStore) (id : Nat) : Option Message :=
  alookup st id

/-- `MemStorage.editMessage` / `DbStorage.editMessage`: set only the
`content` column of the row with the given id (no-op when absent). -/
def editMessage (st : MsgStore) (id : Nat) (content : String) : MsgStore :=
  aupdate st id (fun m => { m with content := content })

/-- `MemStorage.deleteMessage` / `DbStorage.deleteMessage`: set only
`deleted := true` on the row with the given id (no-op when absent). -/
def deleteMessage (st : MsgStore) (id : Nat) : MsgStore :=
  aupdate st id (fun m => { m with deleted := true })

/-- The filter predicate of `getMessagesBetweenUsers`:
`(senderId = a ∧ receiverId = b) ∨ (senderId = b ∧ receiverId = a)`. -/
def betweenPred (a b : Nat) (m : Message) : Bool :=
  (m.senderId == a && m.receiverId == b) || (m.senderId == b && m.receiverId == a)

/-- Comparator used by `getMessagesBetweenUsers`'s ascending sort on
`createdAt`. -/
def createdAtLE (m1 m2 : Message) : Prop :=
  m1.createdAt ≤ m2.createdAt

instance : DecidableRel createdAtLE := fun m1 m2 => Nat.decLe m1.createdAt m2.createdAt

instance : IsTotal Message createdAtLE :=
  ⟨fun a b => Nat.le_total a.createdAt b.createdAt⟩

instance : IsTrans Message createdAtLE :=
  ⟨fun _ _ _ h1 h2 => Nat.le_trans h1 h2⟩

/-- `MemStorage.getMessagesBetweenUsers` / `DbStorage.getMessagesBetweenUsers`:
filter the message rows to the two (sender, receiver) orientations of the
pair `(a, b)` and sort ascending by `createdAt`. The soft-delete flag is not
consulted. -/
def getMessagesBetweenUsers (msgs : List Message) (a b : Nat) : List Message :=
  List.insertionSort createdAtLE (msgs.filter (betweenPred a b))

/-- Claim C10: `getMessagesBetweenUsers(a, b)` returns exactly the messages
whose (senderId, receiverId) pair is (a, b) or (b, a) — soft-deleted ones
included — sorted ascending by `createdAt`, and it is symmetric in its two
arguments. -/
theorem C10_getMessagesBetweenUsers_spec (msgs : List Message) (a b : Nat) :
    (∀ m, m ∈ getMessagesBetweenUsers msgs a b ↔
        m ∈ msgs ∧ ((m.senderId = a ∧ m.receiverId = b) ∨
                    (m.senderId = b ∧ m.receiverId = a)))
    ∧ (getMessagesBetweenUsers msgs a b).Perm (msgs.filter (betweenPred a b))
    ∧ List.Sorted createdAtLE (getMessagesBetweenUsers msgs a b)
    ∧ getMessagesBetweenUsers msgs a b = getMessagesBetweenUsers msgs b a := by
  refine ⟨?_, ?_, ?_, ?_⟩
  · intro m
    unfold getMessagesBetweenUsers
    rw [List.Perm.mem_iff (List.perm_insertionSort createdAtLE _)]
    simp [List.mem_filter, betweenPred]
  · exact List.perm_insertionSort createdAtLE _
  · exact List.sorted_insertionSort createdAtLE _
  · unfold getMessagesBetweenUsers
    have hf : msgs.filter (betweenPred a b) = msgs.filter (betweenPred b a) := by
      apply List.filter_congr
      intro m _
      unfold betweenPred
      exact Bool.or_comm _ _
    rw [hf]

/-- Claim C8: editing changes only `content`, deleting sets only `deleted`;
other fields and other rows are untouched and the row stays retrievable. -/
theorem C8_edit_delete_frame (st : MsgStore) (id : Nat) (m : Message) (c : String)
    (h : getMessage st id = some m) :
    getMessage (editMessage st id c) id = some { m with content := c }
    ∧ getMessage (deleteMessage st id) id = some { m with deleted := true }
    ∧ (∀ j, j ≠ id → getMessage (editMessage st id c) j = getMessage st j)
    ∧ (∀ j, j ≠ id → getMessage (deleteMessage st id) j = getMessage st j) := by
  refine ⟨?_, ?_, ?_, ?_⟩
  · exact alookup_aupdate_self _ h
  · exact alookup_aupdate_self _ h
  · intro j hj
    exact alookup_aupdate_ne st _ hj
  · intro j hj
    exact alookup_aupdate_ne st _ hj

/-- A concrete message used by the closed witnesses. -/
def msg0 : Message :=
  { id := 1, content := "hello", senderId := 1, receiverId := 2,
    mediaUrl := none, createdAt := 5, deleted := false }

/-- Witness for C8 at a concrete one-row store. -/
theorem C8_edit_delete_frame_witness :
    getMessage (editMessage [(1, msg0)] 1 "hi") 1 = some { msg0 with content := "hi" }
    ∧ getMessage (deleteMessage [(1, msg0)] 1) 1 = some { msg0 with deleted := true }
    ∧ (∀ j, j ≠ 1 → getMessage (editMessage [(1, msg0)] 1 "hi") j = getMessage [(1, msg0)] j)
    ∧ (∀ j, j ≠ 1 → getMessage (deleteMessage [(1, msg0)] 1) j = getMessage [(1, msg0)] j) :=
  C8_edit_delete_frame [(1, msg0)] 1 msg0 "hi" rfl


/-! ### The realtime core (routes.ts, `registerRoutes`)

One process-wide WebSocket server: `wss.clients` is the set of tracked
sockets (embedded as `conns`, keyed by an abstract connection id), and
`clients` is the `Map<number, ExtWebSocket>` registry from userId to the
live connection. Sockets carry the mutable `userId` and `isAlive` fields of
`ExtWebSocket`. `close()` starts a normal closing handshake
(`closingNormal`); the `'close'` event fires when the socket is closed. -/

inductive ConnState where
  | opened
  | closingNormal
  | closed
  deriving DecidableEq, Repr

structure Conn where
  userId : Option Nat
  isAlive : Bool
  state : ConnState
  deriving DecidableEq, Repr

/-- Envelopes and probes the server writes to a socket. -/
inductive Event where
  | userStatus (userId : Nat) (online : Bool)
  | newMessage (m : Message)
  | typing (userId : Nat)
  | errorEvt
  | ping
  deriving DecidableEq, Repr

/-- The whole mutable server state: tracked sockets, the userId-keyed
registry, the persisted `online` column, and the chronological list of
(socket, event) sends. -/
structure ServerState where
  conns : List (Nat × Conn)
  clients : List (Nat × Nat)
  onlineFlags : List (Nat × Bool)
  log : List (Nat × Event)
  deriving DecidableEq, Repr

/-- `readyState === WebSocket.OPEN` for the socket with id `cid`. -/
def isOpenIn (conns : List (Nat × Conn)) (cid : Nat) : Bool :=
  match alookup conns cid with
  | some cn => decide (cn.state = ConnState.opened)
  | none => false

/-- `broadcastUserStatus` (routes.ts): serialize a `userStatus{userId,
online}` envelope and send it to every currently open connection among
`Array.from(clients.values())`. -/
def broadcastUserStatus (cl : List (Nat × Nat)) (conns : List (Nat × Conn))
    (u : Nat) (online : Bool) : List (Nat × Event) :=
  ((avalues cl).filter (fun cid => isOpenIn conns cid)).map
    (fun cid => (cid, Event.userStatus u online))

/-- The `case 'auth'` branch of the `ws.on('message')` handler: assign
`ws.userId`; when it is truthy (nonzero), `close()` any existing registry
entry for that user, install this connection with `clients.set`, persist
`online=true`, and broadcast the online status. -/
def handleAuth (s : ServerState) (c : Nat) (u : Nat) : ServerState :=
  let conns0 := aupdate s.conns c (fun cn => { cn with userId := some u })
  if u ≠ 0 then
    let conns1 :=
      match alookup s.clients u with
      | some existing =>
          aupdate conns0 existing (fun cn => { cn with state := ConnState.closingNormal })
      | none => conns0
    let clients1 := ainsert s.clients u c
    { conns := conns1
      clients := clients1
      onlineFlags := aupdate s.onlineFlags u (fun _ => true)
      log := s.log ++ broadcastUserStatus clients1 conns1 u true }
  else
    { s with conns := conns0 }

/-- The `ws.on('close')` handler: when `ws.userId` is truthy, delete the
registry entry stored under that userId (no identity comparison with the
stored connection), persist `online=false`, and broadcast the offline
status to the remaining registry members. -/
def runCloseHandler (s : ServerState) (c : Nat) : ServerState :=
  match alookup s.conns c with
  | none => s
  | some cn =>
    match cn.userId with
    | some u =>
      if u ≠ 0 then
        let clients1 := aerase s.clients u
        { s with clients := clients1
                 onlineFlags := aupdate s.onlineFlags u (fun _ => false)
                 log := s.log ++ broadcastUserStatus clients1 s.conns u false }
      else s
    | none => s

/-- Completion of a socket teardown (the closing handshake started by
`close()` finishing, or an abrupt `terminate()`): the socket becomes
closed and the `'close'` event fires, running the close handler. -/
def fireClose (s : ServerState) (c : Nat) : ServerState :=
  runCloseHandler
    { s with conns := aupdate s.conns c (fun cn => { cn with state := ConnState.closed }) } c

/-- One visit of the 30-second `pingInterval` callback to one socket: a
socket that failed to answer the previous probe (`isAlive === false`) is
`terminate()`d; otherwise its liveness flag is cleared and a ping probe is
sent. -/
def tickOne (s : ServerState) (c : Nat) : ServerState :=
  match alookup s.conns c with
  | none => s
  | some cn =>
    if cn.state = ConnState.opened then
      if cn.isAlive = false then
        fireClose s c
      else
        { s with conns := aupdate s.conns c (fun x => { x with isAlive := false })
                 log := s.log ++ [(c, Event.ping)] }
    else s

/-- The 30-second `pingInterval` callback: visit every tracked socket. -/
def pingTick (s : ServerState) : ServerState :=
  (s.conns.map Prod.fst).foldl tickOne s

/-- The `ws.on('pong')` handler: any heartbeat acknowledgment marks the
socket alive again. -/
def handlePong (s : ServerState) (c : Nat) : ServerState :=
  { s with conns := aupdate s.conns c (fun cn => { cn with isAlive := true }) }

/-- A decoded `{type, payload}` envelope of the kinds the server reads. -/
inductive WSMessage where
  | auth (userId : Nat)
  | typing (receiverId : Nat)
  | other
  deriving DecidableEq, Repr

/-- The `case 'typing'` branch: when this socket is bound to a truthy
userId, forward a `typing{userId}` event to the receiver's registered
connection if it is open; otherwise drop silently. -/
def handleTyping (s : ServerState) (c : Nat) (receiverId : Nat) : ServerState :=
  match alookup s.conns c with
  | none => s
  | some cn =>
    match cn.userId with
    | some u =>
      if u ≠ 0 then
        match alookup s.clients receiverId with
        | some rc =>
          if isOpenIn s.conns rc then
            { s with log := s.log ++ [(rc, Event.typing u)] }
          else s
        | none => s
      else s
    | none => s

/-- The whole `ws.on('message')` handler: `none` stands for an inbound
frame `JSON.parse` cannot parse, which lands in the catch block — exactly
one `error` envelope is written back to the originating socket and nothing
else happens. A parsed envelope is dispatched on its `type` tag; tags
outside the switch fall through silently. -/
def handleFrame (s : ServerState) (c : Nat) (frame : Option WSMessage) : ServerState :=
  match frame with
  | none => { s with log := s.log ++ [(c, Event.errorEvt)] }
  | some (WSMessage.auth u) => handleAuth s c u
  | some (WSMessage.typing r) => handleTyping s c r
  | some WSMessage.other => s

/-- Executable model of JavaScript `String.prototype.trim` (strip leading
and trailing whitespace), written with structural recursion so that terms
reduce inside the kernel. -/
def jsTrim (str : String) : String :=
  ⟨((str.data.dropWhile Char.isWhitespace).reverse.dropWhile Char.isWhitespace).reverse⟩

/-- JavaScript `x || null` on a nullable string: the empty string also
coerces to null. Applied to `mediaUrl` both by the route and by
`DbStorage.createMessage`. -/
def orNull (x : Option String) : Option String :=
  match x with
  | some str => if str = "" then none else some str
  | none => none

/-- `DbStorage.createMessage`: throws when sender and receiver coincide,
otherwise inserts a fresh row with `createdAt` set at creation time and
`deleted := false`. -/
def createMessageDb (nid now : Nat) (d : InsertMessage) : Except String Message :=
  if d.senderId = d.receiverId then
    Except.error "Cannot send message to yourself"
  else
    Except.ok
      { id := nid, content := d.content, senderId := d.senderId,
        receiverId := d.receiverId, mediaUrl := orNull d.mediaUrl,
        createdAt := now, deleted := false }

/-- The `POST /api/messages` route: coerce `mediaUrl`, reject payloads with
neither content nor media, reject self-sends, persist through
`storage.createMessage`, then relay the created row: a `newMessage` push to
the receiver's open registered connection and — only nested inside that
branch — an echo of the identical payload to the sender's open registered
connection. -/
def postMessage (s : ServerState) (store : MsgStore) (nid now : Nat)
    (d : InsertMessage) : Except String Message × MsgStore × ServerState :=
  let dd : InsertMessage := { d with mediaUrl := orNull d.mediaUrl }
  if jsTrim dd.content = "" ∧ dd.mediaUrl = none then
    (Except.error "Message content or media required", store, s)
  else if dd.senderId = dd.receiverId then
    (Except.error "Cannot send message to yourself", store, s)
  else
    match createMessageDb nid now dd with
    | Except.error e => (Except.error e, store, s)
    | Except.ok m =>
      let store1 := ainsert store m.id m
      let log1 :=
        match alookup s.clients m.receiverId with
        | some rc =>
          if isOpenIn s.conns rc then
            let afterReceiver := s.log ++ [(rc, Event.newMessage m)]
            match alookup s.clients m.senderId with
            | some sc =>
              if isOpenIn s.conns sc then afterReceiver ++ [(sc, Event.newMessage m)]
              else afterReceiver
            | none => afterReceiver
          else s.log
        | none => s.log
      (Except.ok m, store1, { s with log := log1 })

/-! ### Infrastructure lemmas about the handlers -/

theorem drop_append_len {α : Type} (l d : List α) : (l ++ d).drop l.length = d := by
  induction l with
  | nil => rfl
  | cons a t ih =>
    simp only [List.cons_append, List.length_cons, List.drop_succ_cons]
    exact ih

theorem handleAuth_clients_eq (s : ServerState) (c u : Nat) (hu : u ≠ 0) :
    (handleAuth s c u).clients = ainsert s.clients u c := by
  unfold handleAuth
  cases halk : alookup s.clients u <;> simp [hu, halk]

theorem handleAuth_log_eq (s : ServerState) (c u : Nat) (hu : u ≠ 0) :
    (handleAuth s c u).log
      = s.log ++ broadcastUserStatus (handleAuth s c u).clients
          (handleAuth s c u).conns u true := by
  unfold handleAuth
  cases halk : alookup s.clients u <;> simp [hu, halk]

theorem handleAuth_conns_userId (s : ServerState) (c u : Nat) (cn : Conn)
    (hc : alookup s.conns c = some cn) (hu : u ≠ 0) :
    ∃ cn2, alookup (handleAuth s c u).conns c = some cn2 ∧ cn2.userId = some u := by
  unfold handleAuth
  have h0 : alookup (aupdate s.conns c (fun x => { x with userId := some u })) c
      = some { cn with userId := some u } := alookup_aupdate_self _ hc
  cases halk : alookup s.clients u with
  | none =>
    refine ⟨{ cn with userId := some u }, ?_, rfl⟩
    simp only [halk, hu, ne_eq, not_false_eq_true, if_true]
    exact h0
  | some e =>
    by_cases hec : e = c
    · subst hec
      refine ⟨{ cn with userId := some u, state := ConnState.closingNormal }, ?_, rfl⟩
      simp only [halk, hu, ne_eq, not_false_eq_true, if_true]
      exact alookup_aupdate_self _ h0
    · refine ⟨{ cn with userId := some u }, ?_, rfl⟩
      simp only [halk, hu, ne_eq, not_false_eq_true, if_true]
      rw [alookup_aupdate_ne _ _ (fun hh => hec hh.symm)]
      exact h0

theorem handleAuth_closes_existing (s : ServerState) (c2 u c1 : Nat) (cn1 : Conn)
    (hu : u ≠ 0) (hreg : alookup s.clients u = some c1) (hne : c1 ≠ c2)
    (hc1 : alookup s.conns c1 = some cn1) :
    alookup (handleAuth s c2 u).conns c1
      = some { cn1 with state := ConnState.closingNormal } := by
  unfold handleAuth
  simp only [hreg, hu, ne_eq, not_false_eq_true, if_true]
  have h1 : alookup (aupdate s.conns c2 (fun x => { x with userId := some u })) c1
      = some cn1 := by
    rw [alookup_aupdate_ne _ _ hne]
    exact hc1
  exact alookup_aupdate_self _ h1

theorem fireClose_effects (s : ServerState) (c u : Nat) (cn : Conn)
    (hc : alookup s.conns c = some cn) (huid : cn.userId = some u) (hu : u ≠ 0) :
    (fireClose s c).clients = aerase s.clients u
    ∧ (fireClose s c).conns
        = aupdate s.conns c (fun x => { x with state := ConnState.closed })
    ∧ (fireClose s c).log
        = s.log ++ broadcastUserStatus (fireClose s c).clients
            (fireClose s c).conns u false := by
  have h1 : alookup (aupdate s.conns c (fun x => { x with state := ConnState.closed })) c
      = some { cn with state := ConnState.closed } := alookup_aupdate_self _ hc
  unfold fireClose runCloseHandler
  simp only [h1, huid, hu, ne_eq, not_false_eq_true, if_true]
  refine ⟨?_, ?_, ?_⟩ <;> first | rfl | trivial

/-- How many times the event `e` was sent to socket `cid` in the log
fragment `l`. -/
def sendCount (l : List (Nat × Event)) (cid : Nat) (e : Event) : Nat :=
  (l.filter (fun p => decide (p = (cid, e)))).length

theorem sendCount_cons (p : Nat × Event) (l : List (Nat × Event)) (cid : Nat) (e : Event) :
    sendCount (p :: l) cid e
      = (if p = (cid, e) then 1 else 0) + sendCount l cid e := by
  unfold sendCount
  rw [List.filter_cons]
  by_cases hp : p = (cid, e)
  · rw [if_pos (by simpa using hp), if_pos hp, List.length_cons]
    omega
  · rw [if_neg (by simpa using hp), if_neg hp]
    omega

theorem sendCount_map_notmem (vals : List Nat) (e : Event) {cid : Nat}
    (hnot : cid ∉ vals) :
    sendCount (vals.map (fun v => (v, e))) cid e = 0 := by
  induction vals with
  | nil => rfl
  | cons v vs ih =>
    rw [List.map_cons, sendCount_cons]
    have hvc : ¬ (v, e) = (cid, e) := by
      intro hh
      apply hnot
      have hv : v = cid := congrArg Prod.fst hh
      rw [← hv]
      exact List.mem_cons_self v vs
    rw [if_neg hvc, ih (fun hh => hnot (List.mem_cons_of_mem v hh))]

theorem sendCount_map_self (vals : List Nat) (e : Event) {cid : Nat}
    (hnd : vals.Nodup) (hmem : cid ∈ vals) :
    sendCount (vals.map (fun v => (v, e))) cid e = 1 := by
  induction vals with
  | nil => simp at hmem
  | cons v vs ih =>
    rw [List.map_cons, sendCount_cons]
    rcases List.nodup_cons.mp hnd with ⟨hv, hnd2⟩
    by_cases hvc : v = cid
    · subst hvc
      rw [if_pos rfl, sendCount_map_notmem vs e hv]
    · have hmem2 : cid ∈ vs := by
        rcases List.mem_cons.mp hmem with h | h
        · exact absurd h.symm hvc
        · exact h
      have hvc2 : ¬ (v, e) = (cid, e) := fun hh => hvc (congrArg Prod.fst hh)
      rw [if_neg hvc2, ih hnd2 hmem2]

theorem sendCount_map_other (vals : List Nat) (e e2 : Event) (cid : Nat)
    (hne : e2 ≠ e) :
    sendCount (vals.map (fun v => (v, e))) cid e2 = 0 := by
  induction vals with
  | nil => rfl
  | cons v vs ih =>
    rw [List.map_cons, sendCount_cons]
    have hvc : ¬ (v, e) = (cid, e2) := fun hh => hne (congrArg Prod.snd hh).symm
    rw [if_neg hvc, ih]

theorem sendCount_broadcast_self {cl : List (Nat × Nat)} {conns : List (Nat × Conn)}
    {u : Nat} {b : Bool} {cid : Nat}
    (hnd : (avalues cl).Nodup) (hmem : cid ∈ avalues cl)
    (hopen : isOpenIn conns cid = true) :
    sendCount (broadcastUserStatus cl conns u b) cid (Event.userStatus u b) = 1 := by
  unfold broadcastUserStatus
  exact sendCount_map_self _ _ (List.Nodup.filter _ hnd)
    (List.mem_filter.mpr ⟨hmem, hopen⟩)

theorem sendCount_broadcast_other {cl : List (Nat × Nat)} {conns : List (Nat × Conn)}
    {u : Nat} {b : Bool} (cid : Nat) (e : Event)
    (hne : e ≠ Event.userStatus u b) :
    sendCount (broadcastUserStatus cl conns u b) cid e = 0 :=
  sendCount_map_other _ _ _ _ hne

/-! ### The claims -/

/-- Claim C2 (confirmed): after `register(u, c1)` then `register(u, c2)`,
`lookup(u)` returns `c2`, `c1` has been put into the normal closing
handshake by `close()`, and the registry keeps mapping each userId to at
most one connection (its key list stays duplicate-free). -/
theorem C2_register_evicts_previous (s : ServerState) (u c1 c2 : Nat) (cn1 : Conn)
    (hu : u ≠ 0) (hne : c1 ≠ c2) (hc1 : alookup s.conns c1 = some cn1)
    (hkeys : (s.clients.map Prod.fst).Nodup) :
    alookup (handleAuth (handleAuth s c1 u) c2 u).clients u = some c2
    ∧ (∃ cn, alookup (handleAuth (handleAuth s c1 u) c2 u).conns c1 = some cn
        ∧ cn.state = ConnState.closingNormal)
    ∧ ((handleAuth (handleAuth s c1 u) c2 u).clients.map Prod.fst).Nodup := by
  have hcl1 : (handleAuth s c1 u).clients = ainsert s.clients u c1 :=
    handleAuth_clients_eq s c1 u hu
  have hreg1 : alookup (handleAuth s c1 u).clients u = some c1 := by
    rw [hcl1]
    exact alookup_ainsert_self s.clients u c1
  obtain ⟨cn1x, hcn1x, _⟩ := handleAuth_conns_userId s c1 u cn1 hc1 hu
  refine ⟨?_, ?_, ?_⟩
  · rw [handleAuth_clients_eq _ c2 u hu]
    exact alookup_ainsert_self _ u c2
  · exact ⟨{ cn1x with state := ConnState.closingNormal },
      handleAuth_closes_existing _ c2 u c1 cn1x hu hreg1 hne hcn1x, rfl⟩
  · rw [handleAuth_clients_eq _ c2 u hu, hcl1]
    exact keys_ainsert_nodup _ u c2 (keys_ainsert_nodup _ u c1 hkeys)

/-- A fresh open socket not yet bound to any user. -/
def cnOpen : Conn := { userId := none, isAlive := true, state := ConnState.opened }

/-- A small server state for the closed witnesses: two fresh sockets and an
empty registry. -/
def st2 : ServerState :=
  { conns := [(1, cnOpen), (2, cnOpen)], clients := [],
    onlineFlags := [(7, false)], log := [] }

/-- Witness for C2: user 7 logs in on socket 1 and then again on socket 2. -/
theorem C2_register_evicts_previous_witness :
    alookup (handleAuth (handleAuth st2 1 7) 2 7).clients 7 = some 2
    ∧ (∃ cn, alookup (handleAuth (handleAuth st2 1 7) 2 7).conns 1 = some cn
        ∧ cn.state = ConnState.closingNormal)
    ∧ ((handleAuth (handleAuth st2 1 7) 2 7).clients.map Prod.fst).Nodup :=
  C2_register_evicts_previous st2 7 1 2 cnOpen
    (by decide) (by decide) (by decide) (by decide)

/-- Claim C1 (corrected): the close handler deletes the registry entry by
userId with no identity comparison, so a delayed close of `c1` after
`register(u, c1)`, `register(u, c2)` removes `c2`'s entry — `lookup(u)` is
absent afterwards, not `c2`. -/
theorem C1_stale_close_removes_new_connection (s : ServerState) (u c1 c2 : Nat)
    (cn1 : Conn) (hu : u ≠ 0) (hne : c1 ≠ c2)
    (hc1 : alookup s.conns c1 = some cn1) :
    alookup (handleAuth (handleAuth s c1 u) c2 u).clients u = some c2
    ∧ alookup (fireClose (handleAuth (handleAuth s c1 u) c2 u) c1).clients u = none := by
  have hcl1 : (handleAuth s c1 u).clients = ainsert s.clients u c1 :=
    handleAuth_clients_eq s c1 u hu
  have hreg1 : alookup (handleAuth s c1 u).clients u = some c1 := by
    rw [hcl1]
    exact alookup_ainsert_self s.clients u c1
  obtain ⟨cn1x, hcn1x, huid1x⟩ := handleAuth_conns_userId s c1 u cn1 hc1 hu
  have hclose : alookup (handleAuth (handleAuth s c1 u) c2 u).conns c1
      = some { cn1x with state := ConnState.closingNormal } :=
    handleAuth_closes_existing _ c2 u c1 cn1x hu hreg1 hne hcn1x
  refine ⟨?_, ?_⟩
  · rw [handleAuth_clients_eq _ c2 u hu]
    exact alookup_ainsert_self _ u c2
  · have heff := fireClose_effects (handleAuth (handleAuth s c1 u) c2 u) c1 u
      { cn1x with state := ConnState.closingNormal } hclose huid1x hu
    rw [heff.1]
    exact alookup_aerase_self _ u

/-- Counterexample to C1 as stated: on the concrete double-login trace the
registry still maps user 7 to socket 2 right after the second register, but
after socket 1's delayed close handler runs, the entry for user 7 is gone
(the claim demands it still be socket 2). -/
theorem C1_counterexample :
    alookup (handleAuth (handleAuth st2 1 7) 2 7).clients 7 = some 2
    ∧ alookup (fireClose (handleAuth (handleAuth st2 1 7) 2 7) 1).clients 7 = none := by
  decide

/-- Witness for the amended C1 theorem at the same concrete trace. -/
theorem C1_stale_close_removes_new_connection_witness :
    alookup (handleAuth (handleAuth st2 1 7) 2 7).clients 7 = some 2
    ∧ alookup (fireClose (handleAuth (handleAuth st2 1 7) 2 7) 1).clients 7 = none :=
  C1_stale_close_removes_new_connection st2 7 1 2 cnOpen
    (by decide) (by decide) (by decide)

/-- Claim C9 (confirmed): an unparseable inbound frame makes the server
send exactly one `error` envelope back to the originating socket, and
nothing else changes — the socket set and the registry are untouched, so
the connection is neither closed nor deregistered. -/
theorem C9_malformed_frame_error_only (s : ServerState) (c : Nat) :
    (handleFrame s c none).clients = s.clients
    ∧ (handleFrame s c none).conns = s.conns
    ∧ (handleFrame s c none).log = s.log ++ [(c, Event.errorEvt)]
    ∧ sendCount ((handleFrame s c none).log.drop s.log.length) c Event.errorEvt = 1
    ∧ (∀ c2 e, (c2, e) ≠ (c, Event.errorEvt) →
        sendCount ((handleFrame s c none).log.drop s.log.length) c2 e = 0) := by
  have hlog : (handleFrame s c none).log = s.log ++ [(c, Event.errorEvt)] := rfl
  have hdelta : (handleFrame s c none).log.drop s.log.length = [(c, Event.errorEvt)] := by
    rw [hlog, drop_append_len]
  refine ⟨rfl, rfl, rfl, ?_, ?_⟩
  · rw [hdelta, sendCount_cons, if_pos rfl]
    rfl
  · intro c2 e hne
    rw [hdelta, sendCount_cons, if_neg (fun hh => hne hh.symm)]
    rfl

/-- Claim C4 (confirmed): registering user `u` appends exactly the one
`userStatus{u, online:true}` broadcast to the log — one copy to each open
registered connection, nothing else — and firing a close for a connection
bound to `u2` appends exactly the one `userStatus{u2, online:false}`
broadcast to every remaining open registered connection, nothing else. -/
theorem C4_presence_broadcast_exactly_once
    (s s2 : ServerState) (c u c2 u2 : Nat) (cn2 : Conn)
    (hu : u ≠ 0)
    (hnd1 : (avalues (handleAuth s c u).clients).Nodup)
    (hc2 : alookup s2.conns c2 = some cn2) (huid2 : cn2.userId = some u2)
    (hu2 : u2 ≠ 0)
    (hnd2 : (avalues (fireClose s2 c2).clients).Nodup) :
    ((handleAuth s c u).log
        = s.log ++ broadcastUserStatus (handleAuth s c u).clients
            (handleAuth s c u).conns u true)
    ∧ (∀ cid, cid ∈ avalues (handleAuth s c u).clients →
        isOpenIn (handleAuth s c u).conns cid = true →
        sendCount ((handleAuth s c u).log.drop s.log.length)
          cid (Event.userStatus u true) = 1)
    ∧ (∀ cid e, e ≠ Event.userStatus u true →
        sendCount ((handleAuth s c u).log.drop s.log.length) cid e = 0)
    ∧ ((fireClose s2 c2).log
        = s2.log ++ broadcastUserStatus (fireClose s2 c2).clients
            (fireClose s2 c2).conns u2 false)
    ∧ (∀ cid, cid ∈ avalues (fireClose s2 c2).clients →
        isOpenIn (fireClose s2 c2).conns cid = true →
        sendCount ((fireClose s2 c2).log.drop s2.log.length)
          cid (Event.userStatus u2 false) = 1)
    ∧ (∀ cid e, e ≠ Event.userStatus u2 false →
        sendCount ((fireClose s2 c2).log.drop s2.log.length) cid e = 0) := by
  have hlog1 := handleAuth_log_eq s c u hu
  have hdelta1 : (handleAuth s c u).log.drop s.log.length
      = broadcastUserStatus (handleAuth s c u).clients (handleAuth s c u).conns u true := by
    rw [hlog1, drop_append_len]
  have heff := fireClose_effects s2 c2 u2 cn2 hc2 huid2 hu2
  have hdelta2 : (fireClose s2 c2).log.drop s2.log.length
      = broadcastUserStatus (fireClose s2 c2).clients (fireClose s2 c2).conns u2 false := by
    rw [heff.2.2, drop_append_len]
  refine ⟨hlog1, ?_, ?_, heff.2.2, ?_, ?_⟩
  · intro cid hmem hopen
    rw [hdelta1]
    exact sendCount_broadcast_self hnd1 hmem hopen
  · intro cid e hne
    rw [hdelta1]
    exact sendCount_broadcast_other cid e hne
  · intro cid hmem hopen
    rw [hdelta2]
    exact sendCount_broadcast_self hnd2 hmem hopen
  · intro cid e hne
    rw [hdelta2]
    exact sendCount_broadcast_other cid e hne

/-- An open socket bound to user 9, acting as the observing peer. -/
def cnU9 : Conn := { userId := some 9, isAlive := true, state := ConnState.opened }

/-- An open socket bound to user 7. -/
def cnU7 : Conn := { userId := some 7, isAlive := true, state := ConnState.opened }

/-- A state where user 9 (socket 1) is registered and watching while user 7
registers on socket 2. -/
def st4 : ServerState :=
  { conns := [(1, cnU9), (2, cnOpen)], clients := [(9, 1)],
    onlineFlags := [(7, false), (9, true)], log := [] }

/-- A state where users 9 (socket 1) and 7 (socket 2) are both registered,
used to close socket 2. -/
def st4b : ServerState :=
  { conns := [(1, cnU9), (2, cnU7)], clients := [(9, 1), (7, 2)],
    onlineFlags := [(7, true), (9, true)], log := [] }

/-- Witness for C4: user 7 registers on socket 2 while user 9 watches, and
separately user 7's socket 2 closes while user 9 watches. -/
theorem C4_presence_broadcast_exactly_once_witness :
    ((handleAuth st4 2 7).log
        = st4.log ++ broadcastUserStatus (handleAuth st4 2 7).clients
            (handleAuth st4 2 7).conns 7 true)
    ∧ (∀ cid, cid ∈ avalues (handleAuth st4 2 7).clients →
        isOpenIn (handleAuth st4 2 7).conns cid = true →
        sendCount ((handleAuth st4 2 7).log.drop st4.log.length)
          cid (Event.userStatus 7 true) = 1)
    ∧ (∀ cid e, e ≠ Event.userStatus 7 true →
        sendCount ((handleAuth st4 2 7).log.drop st4.log.length) cid e = 0)
    ∧ ((fireClose st4b 2).log
        = st4b.log ++ broadcastUserStatus (fireClose st4b 2).clients
            (fireClose st4b 2).conns 7 false)
    ∧ (∀ cid, cid ∈ avalues (fireClose st4b 2).clients →
        isOpenIn (fireClose st4b 2).conns cid = true →
        sendCount ((fireClose st4b 2).log.drop st4b.log.length)
          cid (Event.userStatus 7 false) = 1)
    ∧ (∀ cid e, e ≠ Event.userStatus 7 false →
        sendCount ((fireClose st4b 2).log.drop st4b.log.length) cid e = 0) :=
  C4_presence_broadcast_exactly_once st4 st4b 2 7 2 7 cnU7
    (by decide) (by decide) (by decide) (by decide) (by decide) (by decide)

/-- Counterexample to C5 as stated: user 7 registers on socket 1 and then
redundantly on socket 2 while already registered and online; the observing
socket 3 (user 9) receives two `userStatus{7, online:true}` events, not the
single event per actual offline-to-online transition the claim allows. -/
theorem C5_counterexample :
    sendCount ((handleAuth (handleAuth
      { conns := [(1, cnOpen), (2, cnOpen), (3, cnU9)], clients := [(9, 3)],
        onlineFlags := [(7, false), (9, true)], log := [] } 1 7) 2 7).log)
      3 (Event.userStatus 7 true) = 2 := by
  decide

/-- Claim C5 (corrected): `case 'auth'` broadcasts the online status
unconditionally, so a redundant register of an already-registered user
appends one more `userStatus{u, online:true}` event to every open
registered connection — an additional broadcast per redundant call rather
than one event per actual state change. -/
theorem C5_redundant_register_rebroadcasts (s : ServerState) (c u c0 : Nat)
    (hu : u ≠ 0) (_hreg : alookup s.clients u = some c0)
    (hnd : (avalues (handleAuth s c u).clients).Nodup)
    (cid : Nat) (hmem : cid ∈ avalues (handleAuth s c u).clients)
    (hopen : isOpenIn (handleAuth s c u).conns cid = true) :
    sendCount ((handleAuth s c u).log.drop s.log.length)
      cid (Event.userStatus u true) = 1 := by
  have hdelta : (handleAuth s c u).log.drop s.log.length
      = broadcastUserStatus (handleAuth s c u).clients (handleAuth s c u).conns u true := by
    rw [handleAuth_log_eq s c u hu, drop_append_len]
  rw [hdelta]
  exact sendCount_broadcast_self hnd hmem hopen

/-- Witness for the amended C5 theorem: the redundant second register of
user 7 (already registered on socket 1) sends the observer socket 3 one
more online event. -/
theorem C5_redundant_register_rebroadcasts_witness :
    sendCount ((handleAuth
      { conns := [(1, cnU7), (2, cnOpen), (3, cnU9)], clients := [(9, 3), (7, 1)],
        onlineFlags := [(7, true), (9, true)], log := [] } 2 7).log.drop 0)
      3 (Event.userStatus 7 true) = 1 :=
  C5_redundant_register_rebroadcasts
    { conns := [(1, cnU7), (2, cnOpen), (3, cnU9)], clients := [(9, 3), (7, 1)],
      onlineFlags := [(7, true), (9, true)], log := [] }
    2 7 1 (by decide) (by decide) (by decide) 3 (by decide) (by decide)

/-- Claim C7 (confirmed): a message whose sender and receiver coincide is
rejected with a validation error by the route (and independently by
`DbStorage.createMessage`); the message store, the registry, and the send
log are all left unchanged, so no row is persisted and no `newMessage`
relay event reaches any connection. -/
theorem C7_self_message_rejected (s : ServerState) (store : MsgStore) (nid now : Nat)
    (d : InsertMessage) (hself : d.senderId = d.receiverId) :
    (∃ e, (postMessage s store nid now d).1 = Except.error e)
    ∧ (postMessage s store nid now d).2.1 = store
    ∧ (postMessage s store nid now d).2.2 = s
    ∧ (∃ e2, createMessageDb nid now d = Except.error e2) := by
  have hdb : createMessageDb nid now d
      = Except.error "Cannot send message to yourself" := by
    unfold createMessageDb
    rw [if_pos hself]
  simp only [postMessage]
  by_cases hc : jsTrim ({ d with mediaUrl := orNull d.mediaUrl } : InsertMessage).content = ""
      ∧ ({ d with mediaUrl := orNull d.mediaUrl } : InsertMessage).mediaUrl = none
  · rw [if_pos hc]
    exact ⟨⟨_, rfl⟩, rfl, rfl, ⟨_, hdb⟩⟩
  · rw [if_neg hc, if_pos hself]
    exact ⟨⟨_, rfl⟩, rfl, rfl, ⟨_, hdb⟩⟩

/-- Witness for C7: a concrete self-addressed message from user 1. -/
theorem C7_self_message_rejected_witness :
    (∃ e, (postMessage st2 [] 5 100
        { content := "hi", senderId := 1, receiverId := 1, mediaUrl := none }).1
      = Except.error e)
    ∧ (postMessage st2 [] 5 100
        { content := "hi", senderId := 1, receiverId := 1, mediaUrl := none }).2.1 = []
    ∧ (postMessage st2 [] 5 100
        { content := "hi", senderId := 1, receiverId := 1, mediaUrl := none }).2.2 = st2
    ∧ (∃ e2, createMessageDb 5 100
        { content := "hi", senderId := 1, receiverId := 1, mediaUrl := none }
      = Except.error e2) :=
  C7_self_message_rejected st2 [] 5 100
    { content := "hi", senderId := 1, receiverId := 1, mediaUrl := none } rfl

/-- An open socket bound to user 1. -/
def cnU1 : Conn := { userId := some 1, isAlive := true, state := ConnState.opened }

/-- Sender-only state: user 1 is registered on socket 1; user 2 has no
connection at all. -/
def st3 : ServerState :=
  { conns := [(1, cnU1)], clients := [(1, 1)], onlineFlags := [(1, true)], log := [] }

/-- Counterexample to C3 as stated: sender 1 is registered and open,
receiver 2 is absent; the message is created successfully, yet no
`newMessage` event is relayed to anyone — the sender does not receive the
echo the claim promises, because the echo is nested inside the
receiver-connected branch. -/
theorem C3_counterexample :
    alookup st3.clients 1 = some 1
    ∧ isOpenIn st3.conns 1 = true
    ∧ alookup st3.clients 2 = none
    ∧ (∃ m, (postMessage st3 [] 5 100
        { content := "hello", senderId := 1, receiverId := 2, mediaUrl := none }).1
      = Except.ok m)
    ∧ (postMessage st3 [] 5 100
        { content := "hello", senderId := 1, receiverId := 2, mediaUrl := none }).2.2.log
      = [] := by
  refine ⟨rfl, rfl, rfl,
    ⟨{ id := 5, content := "hello", senderId := 1, receiverId := 2,
       mediaUrl := none, createdAt := 100, deleted := false }, rfl⟩, rfl⟩

/-- Claim C3 (corrected): when both sender and receiver have open
registered connections, each receives exactly one `newMessage` event with
the identical message payload and no error is raised; but when the receiver
is not connected (absent or not open), the sender echo is skipped too — the
message is still created without error, and no `newMessage` event is
relayed to any connection. -/
theorem C3_relay_nested_echo (s : ServerState) (store : MsgStore) (nid now : Nat)
    (d : InsertMessage)
    (hcontent : ¬ (jsTrim d.content = "" ∧ orNull d.mediaUrl = none))
    (hneq : ¬ d.senderId = d.receiverId) :
    (∀ rc sc, alookup s.clients d.receiverId = some rc → isOpenIn s.conns rc = true →
        alookup s.clients d.senderId = some sc → isOpenIn s.conns sc = true → ¬ rc = sc →
        ∃ m : Message,
          (postMessage s store nid now d).1 = Except.ok m
          ∧ (postMessage s store nid now d).2.2.log
              = s.log ++ [(rc, Event.newMessage m), (sc, Event.newMessage m)]
          ∧ sendCount ((postMessage s store nid now d).2.2.log.drop s.log.length)
              rc (Event.newMessage m) = 1
          ∧ sendCount ((postMessage s store nid now d).2.2.log.drop s.log.length)
              sc (Event.newMessage m) = 1)
    ∧ ((∀ rc, alookup s.clients d.receiverId = some rc → isOpenIn s.conns rc = false) →
        (∃ m : Message, (postMessage s store nid now d).1 = Except.ok m)
        ∧ (postMessage s store nid now d).2.2.log = s.log) := by
  constructor
  · intro rc sc hrc hrcopen hsc hscopen hrcsc
    have hred : postMessage s store nid now d
        = (Except.ok
            { id := nid, content := d.content, senderId := d.senderId,
              receiverId := d.receiverId, mediaUrl := orNull (orNull d.mediaUrl),
              createdAt := now, deleted := false },
           ainsert store nid
            { id := nid, content := d.content, senderId := d.senderId,
              receiverId := d.receiverId, mediaUrl := orNull (orNull d.mediaUrl),
              createdAt := now, deleted := false },
           { s with log := (s.log ++ [(rc, Event.newMessage
              { id := nid, content := d.content, senderId := d.senderId,
                receiverId := d.receiverId, mediaUrl := orNull (orNull d.mediaUrl),
                createdAt := now, deleted := false })]) ++ [(sc, Event.newMessage
              { id := nid, content := d.content, senderId := d.senderId,
                receiverId := d.receiverId, mediaUrl := orNull (orNull d.mediaUrl),
                createdAt := now, deleted := false })] }) := by
      simp only [postMessage, createMessageDb]
      rw [if_neg hcontent, if_neg hneq, if_neg hneq]
      simp only [hrc, hrcopen, hsc, hscopen, if_true]
    refine ⟨{ id := nid, content := d.content, senderId := d.senderId,
              receiverId := d.receiverId, mediaUrl := orNull (orNull d.mediaUrl),
              createdAt := now, deleted := false }, ?_, ?_, ?_, ?_⟩
    · rw [hred]
    · rw [hred, List.append_assoc]
      rfl
    · rw [hred]
      have hdelta : (((s.log ++ [(rc, Event.newMessage
          { id := nid, content := d.content, senderId := d.senderId,
            receiverId := d.receiverId, mediaUrl := orNull (orNull d.mediaUrl),
            createdAt := now, deleted := false })]) ++ [(sc, Event.newMessage
          { id := nid, content := d.content, senderId := d.senderId,
            receiverId := d.receiverId, mediaUrl := orNull (orNull d.mediaUrl),
            createdAt := now, deleted := false })]).drop s.log.length)
          = [(rc, Event.newMessage
              { id := nid, content := d.content, senderId := d.senderId,
                receiverId := d.receiverId, mediaUrl := orNull (orNull d.mediaUrl),
                createdAt := now, deleted := false }),
             (sc, Event.newMessage
              { id := nid, content := d.content, senderId := d.senderId,
                receiverId := d.receiverId, mediaUrl := orNull (orNull d.mediaUrl),
                createdAt := now, deleted := false })] := by
        rw [List.append_assoc, drop_append_len]
        rfl
      rw [hdelta, sendCount_cons, if_pos rfl, sendCount_cons,
        if_neg (fun hh => hrcsc (congrArg Prod.fst hh).symm)]
      rfl
    · rw [hred]
      have hdelta : (((s.log ++ [(rc, Event.newMessage
          { id := nid, content := d.content, senderId := d.senderId,
            receiverId := d.receiverId, mediaUrl := orNull (orNull d.mediaUrl),
            createdAt := now, deleted := false })]) ++ [(sc, Event.newMessage
          { id := nid, content := d.content, senderId := d.senderId,
            receiverId := d.receiverId, mediaUrl := orNull (orNull d.mediaUrl),
            createdAt := now, deleted := false })]).drop s.log.length)
          = [(rc, Event.newMessage
              { id := nid, content := d.content, senderId := d.senderId,
                receiverId := d.receiverId, mediaUrl := orNull (orNull d.mediaUrl),
                createdAt := now, deleted := false }),
             (sc, Event.newMessage
              { id := nid, content := d.content, senderId := d.senderId,
                receiverId := d.receiverId, mediaUrl := orNull (orNull d.mediaUrl),
                createdAt := now, deleted := false })] := by
        rw [List.append_assoc, drop_append_len]
        rfl
      rw [hdelta, sendCount_cons,
        if_neg (fun hh => hrcsc (congrArg Prod.fst hh)),
        sendCount_cons, if_pos rfl]
      rfl
  · intro hnone
    cases hrcase : alookup s.clients d.receiverId with
    | none =>
      have hred : postMessage s store nid now d
          = (Except.ok
              { id := nid, content := d.content, senderId := d.senderId,
                receiverId := d.receiverId, mediaUrl := orNull (orNull d.mediaUrl),
                createdAt := now, deleted := false },
             ainsert store nid
              { id := nid, content := d.content, senderId := d.senderId,
                receiverId := d.receiverId, mediaUrl := orNull (orNull d.mediaUrl),
                createdAt := now, deleted := false },
             { s with log := s.log }) := by
        simp only [postMessage, createMessageDb]
        rw [if_neg hcontent, if_neg hneq, if_neg hneq]
        simp only [hrcase]
      exact ⟨⟨_, by rw [hred]⟩, by rw [hred]⟩
    | some rc =>
      have hro : isOpenIn s.conns rc = false := hnone rc hrcase
      have hred : postMessage s store nid now d
          = (Except.ok
              { id := nid, content := d.content, senderId := d.senderId,
                receiverId := d.receiverId, mediaUrl := orNull (orNull d.mediaUrl),
                createdAt := now, deleted := false },
             ainsert store nid
              { id := nid, content := d.content, senderId := d.senderId,
                receiverId := d.receiverId, mediaUrl := orNull (orNull d.mediaUrl),
                createdAt := now, deleted := false },
             { s with log := s.log }) := by
        simp only [postMessage, createMessageDb]
        rw [if_neg hcontent, if_neg hneq, if_neg hneq]
        simp only [hrcase, hro, Bool.false_eq_true, if_false]
      exact ⟨⟨_, by rw [hred]⟩, by rw [hred]⟩

/-- Both-connected state for the C3 witness: user 1 on socket 1 and user 2
on socket 2. -/
def st3b : ServerState :=
  { conns := [(1, cnU1), (2, { userId := some 2, isAlive := true, state := ConnState.opened })],
    clients := [(1, 1), (2, 2)], onlineFlags := [(1, true), (2, true)], log := [] }

/-- Witness for the amended C3 theorem at the two concrete states. -/
theorem C3_relay_nested_echo_witness :
    ((∀ rc sc, alookup st3b.clients 2 = some rc → isOpenIn st3b.conns rc = true →
        alookup st3b.clients 1 = some sc → isOpenIn st3b.conns sc = true → ¬ rc = sc →
        ∃ m : Message,
          (postMessage st3b [] 5 100
            { content := "hello", senderId := 1, receiverId := 2, mediaUrl := none }).1
            = Except.ok m
          ∧ (postMessage st3b [] 5 100
              { content := "hello", senderId := 1, receiverId := 2, mediaUrl := none }).2.2.log
              = st3b.log ++ [(rc, Event.newMessage m), (sc, Event.newMessage m)]
          ∧ sendCount ((postMessage st3b [] 5 100
              { content := "hello", senderId := 1, receiverId := 2,
                mediaUrl := none }).2.2.log.drop st3b.log.length)
              rc (Event.newMessage m) = 1
          ∧ sendCount ((postMessage st3b [] 5 100
              { content := "hello", senderId := 1, receiverId := 2,
                mediaUrl := none }).2.2.log.drop st3b.log.length)
              sc (Event.newMessage m) = 1)
    ∧ ((∀ rc, alookup st3b.clients 2 = some rc → isOpenIn st3b.conns rc = false) →
        (∃ m : Message, (postMessage st3b [] 5 100
            { content := "hello", senderId := 1, receiverId := 2, mediaUrl := none }).1
          = Except.ok m)
        ∧ (postMessage st3b [] 5 100
            { content := "hello", senderId := 1, receiverId := 2,
              mediaUrl := none }).2.2.log = st3b.log)) :=
  C3_relay_nested_echo st3b [] 5 100
    { content := "hello", senderId := 1, receiverId := 2, mediaUrl := none }
    (by decide) (by decide)

/-- A state whose only tracked socket is `c`, open and registered to user
`u` — the configuration of interest for a client that stops acknowledging
heartbeat probes. -/
def singleConnState (c u : Nat) (alive : Bool) (fl : List (Nat × Bool))
    (lg : List (Nat × Event)) : ServerState :=
  { conns := [(c, { userId := some u, isAlive := alive, state := ConnState.opened })],
    clients := [(u, c)], onlineFlags := fl, log := lg }

theorem aupdate_single {α : Type} (k : Nat) (v : α) (f : α → α) :
    aupdate [(k, v)] k f = [(k, f v)] := by
  unfold aupdate
  simp only [List.map_cons, List.map_nil]
  rw [if_pos trivial]

theorem pingTick_single (s : ServerState) (c : Nat) (cn : Conn)
    (hconns : s.conns = [(c, cn)]) : pingTick s = tickOne s c := by
  unfold pingTick
  rw [hconns]
  simp only [List.map_cons, List.map_nil, List.foldl_cons, List.foldl_nil]

theorem tickOne_alive (s : ServerState) (c : Nat) (cn : Conn)
    (hc : alookup s.conns c = some cn) (hst : cn.state = ConnState.opened)
    (hal : cn.isAlive = true) :
    tickOne s c
      = { s with conns := aupdate s.conns c (fun x => { x with isAlive := false }),
                 log := s.log ++ [(c, Event.ping)] } := by
  unfold tickOne
  simp only [hc]
  rw [if_pos hst, if_neg (by simp [hal])]

theorem tickOne_dead (s : ServerState) (c : Nat) (cn : Conn)
    (hc : alookup s.conns c = some cn) (hst : cn.state = ConnState.opened)
    (hal : cn.isAlive = false) : tickOne s c = fireClose s c := by
  unfold tickOne
  simp only [hc]
  rw [if_pos hst, if_pos hal]

/-- Claim C6 (confirmed): a registered connection that never acknowledges
its probes is terminated within two heartbeat ticks — the first tick clears
its liveness flag and sends a probe, the second tick (flag still cleared)
terminates the socket and removes it from the registry — and a heartbeat
acknowledgment at any time resets any socket to the alive state. -/
theorem C6_heartbeat_two_strike_eviction (c u : Nat) (fl : List (Nat × Bool))
    (lg : List (Nat × Event)) (hu : u ≠ 0) :
    (pingTick (singleConnState c u true fl lg)).conns
        = [(c, { userId := some u, isAlive := false, state := ConnState.opened })]
    ∧ (pingTick (singleConnState c u true fl lg)).log = lg ++ [(c, Event.ping)]
    ∧ (pingTick (singleConnState c u true fl lg)).clients = [(u, c)]
    ∧ (∃ cn, alookup (pingTick (pingTick (singleConnState c u true fl lg))).conns c
        = some cn ∧ cn.state = ConnState.closed)
    ∧ alookup (pingTick (pingTick (singleConnState c u true fl lg))).clients u = none
    ∧ (∀ s2 c2 cn2, alookup s2.conns c2 = some cn2 →
        alookup (handlePong s2 c2).conns c2 = some { cn2 with isAlive := true }) := by
  have hc0 : (singleConnState c u true fl lg).conns
      = [(c, { userId := some u, isAlive := true, state := ConnState.opened })] := rfl
  have halo0 : alookup (singleConnState c u true fl lg).conns c
      = some { userId := some u, isAlive := true, state := ConnState.opened } := by
    rw [hc0]
    exact alookup_cons_self _ _ _
  have h1 : pingTick (singleConnState c u true fl lg)
      = { conns := [(c, { userId := some u, isAlive := false, state := ConnState.opened })],
          clients := [(u, c)], onlineFlags := fl, log := lg ++ [(c, Event.ping)] } := by
    rw [pingTick_single _ c _ hc0, tickOne_alive _ c _ halo0 rfl rfl, hc0, aupdate_single]
    rfl
  have halo1 : alookup (pingTick (singleConnState c u true fl lg)).conns c
      = some { userId := some u, isAlive := false, state := ConnState.opened } := by
    rw [h1]
    exact alookup_cons_self _ _ _
  have h2 : pingTick (pingTick (singleConnState c u true fl lg))
      = fireClose (pingTick (singleConnState c u true fl lg)) c := by
    refine (pingTick_single _ c _ (by rw [h1])).trans ?_
    exact tickOne_dead _ c _ halo1 rfl rfl
  have heff := fireClose_effects (pingTick (singleConnState c u true fl lg)) c u
    { userId := some u, isAlive := false, state := ConnState.opened } halo1 rfl hu
  refine ⟨?_, ?_, ?_, ?_, ?_, ?_⟩
  · rw [h1]
  · rw [h1]
  · rw [h1]
  · refine ⟨{ userId := some u, isAlive := false, state := ConnState.closed }, ?_, rfl⟩
    rw [h2, heff.2.1, h1, aupdate_single]
    exact alookup_cons_self _ _ _
  · rw [h2, heff.1, h1]
    exact alookup_aerase_self _ u
  · intro s2 c2 cn2 hc2
    show alookup (aupdate s2.conns c2 (fun cn => { cn with isAlive := true })) c2
      = some { cn2 with isAlive := true }
    exact alookup_aupdate_self _ hc2

/-- Witness for C6: socket 1, user 7, starting from empty flags and log. -/
theorem C6_heartbeat_two_strike_eviction_witness :
    (pingTick (singleConnState 1 7 true [] [])).conns
        = [(1, { userId := some 7, isAlive := false, state := ConnState.opened })]
    ∧ (pingTick (singleConnState 1 7 true [] [])).log = [] ++ [(1, Event.ping)]
    ∧ (pingTick (singleConnState 1 7 true [] [])).clients = [(7, 1)]
    ∧ (∃ cn, alookup (pingTick (pingTick (singleConnState 1 7 true [] []))).conns 1
        = some cn ∧ cn.state = ConnState.closed)
    ∧ alookup (pingTick (pingTick (singleConnState 1 7 true [] []))).clients 7 = none
    ∧ (∀ s2 c2 cn2, alookup s2.conns c2 = some cn2 →
        alookup (handlePong s2 c2).conns c2 = some { cn2 with isAlive := true }) :=
  C6_heartbeat_two_strike_eviction 1 7 [] [] (by decide)

end RcaApp
